import Mathlib

/-!
Shallow embedding of the ChatRoomWithLdd real-time chat server
(`src/server.js`, backed by the database layer in `src/unnamed/part_001`,
i.e. `database.js`).

The Socket.IO event layer of `server.js` is modelled as a deterministic
transition system over an explicit `ServerState`:

* the module-level maps `onlineUsers`, `chatroomUsers`, `typingUsers`
  (`server.js` lines 76-78) become association lists keyed by socket id /
  chatroom id;
* the Socket.IO room groups entered via `socket.join` / left via
  `socket.leave` are modelled explicitly as `ioRooms` (room id → sockets),
  since `io.to(room)` broadcasts target this structure, not
  `chatroomUsers`;
* the MySQL tables (`users`, `chatrooms`, `chatroom_members`, `messages`)
  become lists of rows held in the same state, and the `database.js`
  queries become pure functions over them; timestamps assigned by the
  database (`CURRENT_TIMESTAMP`) are read from a logical clock `now`;
* every socket event handler becomes a function
  `ServerState → … → ServerState × List Emit`, where `Emit` records each
  `socket.emit` / broadcast delivery, one entry per receiving socket.

`server.js` registers no timers or scheduled callbacks: passage of time is
modelled by `tick`, which only advances the clock.
-/

/-- JavaScript `String.prototype.trim`: removes whitespace from both ends
of the string (modelled on the underlying character list, since the
handlers only use `content.trim()`). -/
def jsTrim (s : String) : String :=
  ⟨((s.data.dropWhile Char.isWhitespace).reverse.dropWhile Char.isWhitespace).reverse⟩

/-- A row of the `users` table, restricted to the columns selected by
`User.findById` (the password column is never read by the socket layer). -/
structure User where
  id : Nat
  username : String
  nickname : String
  email : Option String
  avatar : Option String
deriving Repr, DecidableEq

/-- A row of the `chatrooms` table. -/
structure Chatroom where
  id : Nat
  name : String
  description : String
  created_by : Nat
  is_public : Bool
deriving Repr, DecidableEq

/-- A row of the `chatroom_members` table. -/
structure MemberRow where
  chatroom_id : Nat
  user_id : Nat
  joined_at : Nat
deriving Repr, DecidableEq

/-- A row of the `messages` table. -/
structure Message where
  id : Nat
  chatroom_id : Nat
  user_id : Nat
  content : String
  created_at : Nat
deriving Repr, DecidableEq

/-- The per-typer record stored in `typingUsers` by the `typing` handler:
`{ id: user.id, nickname: user.nickname }`. -/
structure TypingInfo where
  id : Nat
  nickname : String
deriving Repr, DecidableEq

/-- The `messageData` object broadcast by the `message` handler. -/
structure WireMessage where
  id : Nat
  userId : Nat
  nickname : String
  username : String
  avatar : Option String
  content : String
  timestamp : Nat
  chatroomId : Nat
deriving Repr, DecidableEq

/-- A row returned by `Message.getByChatroom` (message columns joined with
the author's `nickname`, `username`, `avatar`). -/
structure HistoryRow where
  id : Nat
  chatroom_id : Nat
  user_id : Nat
  content : String
  created_at : Nat
  nickname : String
  username : String
  avatar : Option String
deriving Repr, DecidableEq

/-- A row returned by `Chatroom.getMembers`. -/
structure MemberInfo where
  id : Nat
  username : String
  nickname : String
  joined_at : Nat
deriving Repr, DecidableEq

/-- One delivery of one server-to-client event to one socket (`target`).
A broadcast to a room is recorded as one `Emit` per receiving socket. -/
inductive Emit where
  | error (target : Nat) (message : String)
  | authenticated (target : Nat)
  | messageHistory (target : Nat) (messages : List HistoryRow)
  | roomMembers (target : Nat) (members : List MemberInfo)
  | userJoined (target : Nat) (userId : Nat) (nickname : String)
  | userLeft (target : Nat) (userId : Nat) (nickname : String)
  | message (target : Nat) (data : WireMessage)
  | typingUsers (target : Nat) (chatroomId : Nat) (typing : List TypingInfo)
deriving Repr, DecidableEq

/-- The socket that an emitted event is delivered to. -/
def Emit.target : Emit → Nat
  | .error t _ => t
  | .authenticated t => t
  | .messageHistory t _ => t
  | .roomMembers t _ => t
  | .userJoined t _ _ => t
  | .userLeft t _ _ => t
  | .message t _ => t
  | .typingUsers t _ _ => t

/-! ### JavaScript `Map` / `Set` semantics

JS `Map`s keep insertion order and have unique keys; `Map.set` on an
existing key replaces the value in place, `Map.delete` removes the entry.
JS `Set`s keep insertion order, `Set.add` on a present element is a no-op,
`Set.delete` removes it.  They are modelled as association lists / lists. -/

/-- `Map.get` (first entry with the key; keys are unique in JS maps). -/
def mget (k : Nat) : List (Nat × α) → Option α
  | [] => none
  | p :: rest => if p.1 = k then some p.2 else mget k rest

/-- `Map.get` with a default for an absent key. -/
def mgetD (k : Nat) (l : List (Nat × α)) (d : α) : α :=
  (mget k l).getD d

/-- `Map.set`: replace in place if the key is present, else append. -/
def mset (k : Nat) (v : α) : List (Nat × α) → List (Nat × α)
  | [] => [(k, v)]
  | p :: rest => if p.1 = k then (k, v) :: rest else p :: mset k v rest

/-- `Map.delete`. -/
def mdelete (k : Nat) (l : List (Nat × α)) : List (Nat × α) :=
  l.filter (fun p => decide (p.1 ≠ k))

/-- Apply `f` to the value stored at key `k`, if present (the pattern
`if (m.has(k)) { mutate m.get(k) }`). -/
def mupdate (k : Nat) (f : α → α) (l : List (Nat × α)) : List (Nat × α) :=
  l.map (fun p => if p.1 = k then (p.1, f p.2) else p)

/-- `Set.add`. -/
def sadd (x : Nat) (s : List Nat) : List Nat :=
  if x ∈ s then s else s ++ [x]

/-- `Set.delete`. -/
def sdel (x : Nat) (s : List Nat) : List Nat :=
  s.filter (fun y => decide (y ≠ x))

/-! ### The database layer (`database.js`) -/

/-- `User.findById`: `SELECT … FROM users WHERE id = ?` (first row). -/
def User.findById (users : List User) (uid : Nat) : Option User :=
  users.find? (fun u => u.id == uid)

/-- `Chatroom.findById`: `SELECT * FROM chatrooms WHERE id = ?`. -/
def Chatroom.findById (rooms : List Chatroom) (cid : Nat) : Option Chatroom :=
  rooms.find? (fun c => c.id == cid)

/-- `Chatroom.addMember`: `INSERT IGNORE INTO chatroom_members …` —
a duplicate `(chatroom_id, user_id)` pair is ignored (UNIQUE KEY). -/
def Chatroom.addMember (members : List MemberRow) (cid uid now : Nat) :
    List MemberRow :=
  if members.any (fun r => r.chatroom_id == cid && r.user_id == uid) then members
  else members ++ [⟨cid, uid, now⟩]

/-- Sort key of `Chatroom.getMembers` (`ORDER BY cm.joined_at ASC`). -/
def memberAsc (a b : MemberRow) : Prop :=
  a.joined_at ≤ b.joined_at

instance : DecidableRel memberAsc := fun a b => Nat.decLe a.joined_at b.joined_at

/-- `Chatroom.getMembers`: members of a chatroom joined with the `users`
table, ordered by join time. -/
def Chatroom.getMembers (users : List User) (members : List MemberRow)
    (cid : Nat) : List MemberInfo :=
  ((members.filter (fun r => r.chatroom_id == cid)).insertionSort memberAsc).filterMap
    (fun r => (User.findById users r.user_id).map
      (fun u => ⟨u.id, u.username, u.nickname, r.joined_at⟩))

/-- `Message.create`: `INSERT INTO messages …`; the database assigns the
auto-increment id and `created_at = CURRENT_TIMESTAMP`. -/
def Message.create (messages : List Message) (nextId cid uid : Nat)
    (content : String) (now : Nat) : List Message × Message :=
  let row : Message := ⟨nextId, cid, uid, content, now⟩
  (messages ++ [row], row)

/-- Sort key of `Message.getByChatroom` (`ORDER BY m.created_at DESC`). -/
def histDesc (a b : HistoryRow) : Prop :=
  b.created_at ≤ a.created_at

instance : DecidableRel histDesc := fun a b => Nat.decLe b.created_at a.created_at

instance : IsTotal HistoryRow histDesc :=
  ⟨fun a b => Nat.le_total b.created_at a.created_at⟩

instance : IsTrans HistoryRow histDesc :=
  ⟨fun _ _ _ h1 h2 => Nat.le_trans h2 h1⟩

/-- The join of the room's `messages` rows with the `users` table (the
`JOIN users u ON m.user_id = u.id … WHERE m.chatroom_id = ?` part of
`Message.getByChatroom`, before ordering and limiting). -/
def historyRows (users : List User) (messages : List Message) (cid : Nat) :
    List HistoryRow :=
  (messages.filter (fun m => m.chatroom_id == cid)).filterMap
    (fun m => (User.findById users m.user_id).map
      (fun u => HistoryRow.mk m.id m.chatroom_id m.user_id m.content
        m.created_at u.nickname u.username u.avatar))

/-- `Message.getByChatroom`: messages of the chatroom joined with the
`users` table, `ORDER BY m.created_at DESC LIMIT lim`, then `.reverse()`
(comment in the source: return in ascending time order). -/
def Message.getByChatroom (users : List User) (messages : List Message)
    (cid lim : Nat) : List HistoryRow :=
  (((historyRows users messages cid).insertionSort histDesc).take lim).reverse

/-! ### Server state -/

/-- The whole mutable state visible to the socket handlers: the database
tables, the module-level maps of `server.js`, the per-socket `socket.user`
bindings, the Socket.IO room groups, and the logical clock. -/
structure ServerState where
  users : List User
  chatrooms : List Chatroom
  chatroomMembers : List MemberRow
  messages : List Message
  nextMessageId : Nat
  socketUser : List (Nat × User)
  onlineUsers : List (Nat × User)
  ioRooms : List (Nat × List Nat)
  chatroomUsers : List (Nat × List Nat)
  typingUsers : List (Nat × List (Nat × TypingInfo))
  now : Nat
deriving Repr, DecidableEq

/-- The sockets currently in the Socket.IO room `room_<cid>` — the target
set of an `io.to`-style broadcast. -/
def roomSockets (st : ServerState) (cid : Nat) : List Nat :=
  mgetD cid st.ioRooms []

/-- The target set of `socket.to(room).emit(…)`: everyone in the Socket.IO
room except the sending socket. -/
def socketToTargets (st : ServerState) (cid sender : Nat) : List Nat :=
  (roomSockets st cid).filter (fun t => decide (t ≠ sender))

/-! ### Socket event handlers (`server.js`) -/

/-- The `authenticate` handler (`server.js` 298-322): looks the user up by
id; on failure emits `error`; on success stores the selected columns in
`socket.user`, registers the socket in `onlineUsers`, and acks with
`authenticated`.  There is no already-authenticated check: an existing
binding is overwritten. -/
def handleAuthenticate (st : ServerState) (sid uid : Nat) :
    ServerState × List Emit :=
  match User.findById st.users uid with
  | none => (st, [Emit.error sid "用户不存在"])
  | some u =>
      ({ st with socketUser := mset sid u st.socketUser,
                 onlineUsers := mset sid u st.onlineUsers },
       [Emit.authenticated sid])

/-- The `joinRoom` handler (`server.js` 327-380): requires `socket.user`;
requires the chatroom to exist; persists long-term membership
(`Chatroom.addMember`), enters the Socket.IO room, records the socket in
`chatroomUsers`, sends `messageHistory` (limit 50) and `roomMembers` to
the joining socket, and notifies every *other* socket in the room via
`socket.to(room).emit('userJoined', …)`. -/
def handleJoinRoom (st : ServerState) (sid cid : Nat) :
    ServerState × List Emit :=
  match mget sid st.socketUser with
  | none => (st, [Emit.error sid "请先登录"])
  | some u =>
    match Chatroom.findById st.chatrooms cid with
    | none => (st, [Emit.error sid "聊天室不存在"])
    | some _ =>
      let st1 := { st with
        chatroomMembers := Chatroom.addMember st.chatroomMembers cid u.id st.now,
        ioRooms := mset cid (sadd sid (mgetD cid st.ioRooms [])) st.ioRooms,
        chatroomUsers :=
          mset cid (sadd sid (mgetD cid st.chatroomUsers [])) st.chatroomUsers }
      let history := Message.getByChatroom st1.users st1.messages cid 50
      let mems := Chatroom.getMembers st1.users st1.chatroomMembers cid
      (st1,
        [Emit.messageHistory sid history, Emit.roomMembers sid mems]
          ++ (socketToTargets st1 cid sid).map
              (fun t => Emit.userJoined t u.id u.nickname))

/-- The data carried across the `await Message.create(…)` suspension point
of the `message` handler: the `user` snapshot taken from `socket.user`
before the await, the target chatroom, and the trimmed content. -/
structure Pending where
  user : User
  chatroomId : Nat
  content : String
deriving Repr, DecidableEq

/-- The synchronous prefix of the `message` handler (`server.js` 385-397)
up to the persistence call: `none` when the handler returns without
persisting (unauthenticated socket — which additionally emits an error —
or content trimming to empty).  There is no membership check. -/
def messageCheck (st : ServerState) (sid cid : Nat) (content : String) :
    Option Pending :=
  match mget sid st.socketUser with
  | none => none
  | some u => if jsTrim content = "" then none else some ⟨u, cid, jsTrim content⟩

/-- The persistence step of the `message` handler (`server.js` 399-404):
`await Message.create({chatroom_id, user_id, content: content.trim()})`. -/
def messagePersist (st : ServerState) (p : Pending) : ServerState × Message :=
  let (msgs, row) :=
    Message.create st.messages st.nextMessageId p.chatroomId p.user.id p.content st.now
  ({ st with messages := msgs, nextMessageId := st.nextMessageId + 1 }, row)

/-- The fan-out step of the `message` handler (`server.js` 406-418), run
after the persistence await resolves: builds `messageData` and emits it
via `io.to(room_<cid>)` — i.e. to every socket in the Socket.IO room *as
it is at fan-out time*, the sender included when it is in the room. -/
def messageFanout (st : ServerState) (p : Pending) (row : Message) :
    List Emit :=
  let md : WireMessage :=
    ⟨row.id, p.user.id, p.user.nickname, p.user.username, p.user.avatar,
      p.content, st.now, p.chatroomId⟩
  (roomSockets st p.chatroomId).map (fun t => Emit.message t md)

/-- The `message` handler (`server.js` 385-425) with no interleaving
between check, persistence and fan-out. -/
def handleMessage (st : ServerState) (sid cid : Nat) (content : String) :
    ServerState × List Emit :=
  match mget sid st.socketUser with
  | none => (st, [Emit.error sid "请先登录"])
  | some u =>
    if jsTrim content = "" then (st, [])
    else
      let p : Pending := ⟨u, cid, jsTrim content⟩
      let (st1, row) := messagePersist st p
      (st1, messageFanout st1 p row)

/-- The `typing` handler (`server.js` 430-458): silently returns when the
socket is unauthenticated; otherwise inserts/refreshes (`isTyping=true`)
or deletes (`isTyping=false`) the socket's entry in the room's typing map,
then *unconditionally* broadcasts the resulting list via
`io.to(room_<cid>)` — to every socket in the room, the sender included. -/
def handleTyping (st : ServerState) (sid cid : Nat) (isTyping : Bool) :
    ServerState × List Emit :=
  match mget sid st.socketUser with
  | none => (st, [])
  | some u =>
    let room := mgetD cid st.typingUsers []
    let room2 :=
      if isTyping then mset sid (TypingInfo.mk u.id u.nickname) room
      else mdelete sid room
    ({ st with typingUsers := mset cid room2 st.typingUsers },
      (roomSockets st cid).map
        (fun t => Emit.typingUsers t cid (room2.map Prod.snd)))

/-- The `leaveRoom` handler (`server.js` 463-483): silently returns when
the socket is unauthenticated; otherwise leaves the Socket.IO room,
removes the socket from `chatroomUsers` (if the room is tracked), and
notifies the remaining members via `socket.to`.  The room's typing map is
*not* touched. -/
def handleLeaveRoom (st : ServerState) (sid cid : Nat) :
    ServerState × List Emit :=
  match mget sid st.socketUser with
  | none => (st, [])
  | some u =>
    let st1 := { st with
      ioRooms := mupdate cid (sdel sid) st.ioRooms,
      chatroomUsers := mupdate cid (sdel sid) st.chatroomUsers }
    (st1,
      (socketToTargets st1 cid sid).map
        (fun t => Emit.userLeft t u.id u.nickname))

/-- The `disconnect` handler (`server.js` 488-523).  Socket.IO removes the
closing socket from all of its rooms before the handler runs, so `ioRooms`
loses `sid` everywhere first.  If the socket was authenticated, the
handler walks `chatroomUsers`; in every room that still tracks `sid` it
deletes `sid`, and — only there — if the room has a typing map it deletes
`sid`'s typing entry and broadcasts the updated list via `socket.to`, then
emits `userLeft` via `socket.to`.  Finally the socket is removed from
`onlineUsers` (and its `socket.user` binding dies with the socket
object). -/
def handleDisconnect (st : ServerState) (sid : Nat) :
    ServerState × List Emit :=
  let st0 :=
    { st with ioRooms := st.ioRooms.map (fun (p : Nat × List Nat) => (p.1, sdel sid p.2)) }
  match mget sid st0.socketUser with
  | none =>
      ({ st0 with onlineUsers := mdelete sid st0.onlineUsers,
                  socketUser := mdelete sid st0.socketUser }, [])
  | some u =>
      let emits := st0.chatroomUsers.flatMap (fun (p : Nat × List Nat) =>
        if sid ∈ p.2 then
          (match mget p.1 st0.typingUsers with
           | some room =>
              (socketToTargets st0 p.1 sid).map
                (fun t => Emit.typingUsers t p.1 ((mdelete sid room).map Prod.snd))
           | none => [])
          ++ (socketToTargets st0 p.1 sid).map
              (fun t => Emit.userLeft t u.id u.nickname)
        else [])
      ({ st0 with
          chatroomUsers :=
            st0.chatroomUsers.map
              (fun (p : Nat × List Nat) => if sid ∈ p.2 then (p.1, sdel sid p.2) else p),
          typingUsers :=
            st0.typingUsers.map (fun (p : Nat × List (Nat × TypingInfo)) =>
              if sid ∈ mgetD p.1 st0.chatroomUsers [] then (p.1, mdelete sid p.2) else p),
          onlineUsers := mdelete sid st0.onlineUsers,
          socketUser := mdelete sid st0.socketUser }, emits)

/-- Passage of `dt` time units.  `server.js` registers no timers or
scheduled callbacks (in particular none for typing expiry — the only
3-second typing timeout in the repository lives in the browser client),
so the passage of time changes nothing but the clock. -/
def tick (dt : Nat) (st : ServerState) : ServerState :=
  { st with now := st.now + dt }

/-- One client-side occurrence the server reacts to. -/
inductive Event where
  | authenticate (sid uid : Nat)
  | joinRoom (sid cid : Nat)
  | message (sid cid : Nat) (content : String)
  | typing (sid cid : Nat) (isTyping : Bool)
  | leaveRoom (sid cid : Nat)
  | disconnect (sid : Nat)
  | tick (dt : Nat)
deriving Repr, DecidableEq

/-- Dispatch one event to its handler. -/
def step (st : ServerState) : Event → ServerState × List Emit
  | .authenticate sid uid => handleAuthenticate st sid uid
  | .joinRoom sid cid => handleJoinRoom st sid cid
  | .message sid cid content => handleMessage st sid cid content
  | .typing sid cid b => handleTyping st sid cid b
  | .leaveRoom sid cid => handleLeaveRoom st sid cid
  | .disconnect sid => handleDisconnect st sid
  | .tick dt => (tick dt st, [])

/-- Run a sequence of events, accumulating all deliveries in order. -/
def run (st : ServerState) : List Event → ServerState × List Emit
  | [] => (st, [])
  | e :: es =>
    let r1 := step st e
    let r2 := run r1.1 es
    (r2.1, r1.2 ++ r2.2)

/-- A server state holding the given database rows and no live sockets:
the state right after startup. -/
def initState (users : List User) (chatrooms : List Chatroom) : ServerState :=
  ⟨users, chatrooms, [], [], 1, [], [], [], [], [], 0⟩

/-- Does an emitted event carry a `messageHistory` payload? -/
def Emit.isMessageHistory : Emit → Bool
  | .messageHistory _ _ => true
  | _ => false

/-- Does an emitted event carry a `typingUsers` payload? -/
def Emit.isTypingUsers : Emit → Bool
  | .typingUsers _ _ _ => true
  | _ => false

/-! ### Demo fixtures: a three-user database with one chatroom, used by the
concrete witnesses and counterexamples. -/

/-- Demo user 1. -/
def alice : User := ⟨1, "alice", "Alice", none, none⟩

/-- Demo user 2. -/
def bob : User := ⟨2, "bob", "Bob", none, none⟩

/-- Demo user 3. -/
def carol : User := ⟨3, "carol", "Carol", none, none⟩

/-- Demo chatroom with id 10. -/
def roomGeneral : Chatroom := ⟨10, "general", "", 1, true⟩

/-- Demo server state right after startup. -/
def demoState : ServerState := initState [alice, bob, carol] [roomGeneral]

/-- Demo state where sockets 1, 2, 3 are authenticated as Alice, Bob, Carol
and sockets 1 and 2 are in room 10. -/
def demoJoined : ServerState :=
  (run demoState [.authenticate 1 1, .authenticate 2 2, .authenticate 3 3,
    .joinRoom 1 10, .joinRoom 2 10]).1

/-- The pending publish produced by `messageCheck demoJoined 1 10 "hello"`. -/
def demoPending : Pending := ⟨alice, 10, "hello"⟩

/-! ### Basic lemmas about the JS map / set model -/

theorem mget_mset_self (k : Nat) (v : α) (l : List (Nat × α)) :
    mget k (mset k v l) = some v := by
  induction l with
  | nil => simp [mset, mget]
  | cons p rest ih =>
    by_cases h : p.1 = k
    · simp [mset, mget, h]
    · simp [mset, mget, h, ih]

theorem mget_mset_ne (k k2 : Nat) (v : α) (l : List (Nat × α)) (h : k2 ≠ k) :
    mget k2 (mset k v l) = mget k2 l := by
  induction l with
  | nil => simp [mset, mget, Ne.symm h]
  | cons p rest ih =>
    by_cases hp : p.1 = k
    · simp [mset, mget, hp, Ne.symm h]
    · simp only [mset, if_neg hp, mget]
      by_cases hp2 : p.1 = k2
      · simp [hp2]
      · simp [hp2, ih]

theorem mset_eq_of_mget (k : Nat) (v : α) (l : List (Nat × α))
    (h : mget k l = some v) : mset k v l = l := by
  induction l with
  | nil => simp [mget] at h
  | cons p rest ih =>
    by_cases hp : p.1 = k
    · simp only [mget, if_pos hp] at h
      simp only [mset, if_pos hp]
      cases p with
      | mk k2 v2 =>
        simp only at hp
        simp only [Option.some.injEq] at h
        rw [hp, h]
    · simp only [mget, if_neg hp] at h
      simp [mset, if_neg hp, ih h]

theorem mget_mdelete_self (k : Nat) (l : List (Nat × α)) :
    mget k (mdelete k l) = none := by
  induction l with
  | nil => simp [mdelete, mget]
  | cons p rest ih =>
    by_cases hp : p.1 = k
    · simpa [mdelete, List.filter, hp] using ih
    · simpa [mdelete, List.filter, hp, mget] using ih

theorem mget_mupdate_self (k : Nat) (f : α → α) (l : List (Nat × α)) :
    mget k (mupdate k f l) = (mget k l).map f := by
  induction l with
  | nil => simp [mupdate, mget]
  | cons p rest ih =>
    simp only [mupdate] at ih
    by_cases hp : p.1 = k
    · simp [mupdate, mget, hp]
    · simp [mupdate, mget, hp, ih]

theorem mem_sadd (x y : Nat) (s : List Nat) :
    x ∈ sadd y s ↔ x ∈ s ∨ x = y := by
  unfold sadd
  by_cases h : y ∈ s
  · simp only [if_pos h]
    constructor
    · exact Or.inl
    · rintro (hx | rfl)
      · exact hx
      · exact h
  · simp [if_neg h]

theorem mem_sdel (x y : Nat) (s : List Nat) :
    x ∈ sdel y s ↔ x ∈ s ∧ x ≠ y := by
  simp [sdel, List.mem_filter]

theorem sdel_not_mem (y : Nat) (s : List Nat) : y ∉ sdel y s := by
  intro h
  exact ((mem_sdel y y s).mp h).2 rfl

theorem sadd_eq_of_mem (y : Nat) (s : List Nat) (h : y ∈ s) : sadd y s = s := by
  simp [sadd, if_pos h]

/-- Demo state where sockets 1 and 2 are authenticated and only socket 2
is in room 10 (socket 1 has live presence nowhere). -/
def demoBob : ServerState :=
  (run demoState [.authenticate 1 1, .authenticate 2 2, .joinRoom 2 10]).1

/-- Demo state where socket 1 is authenticated, in room 10, and holds an
active typing entry there. -/
def demoTyping : ServerState :=
  (run demoState [.authenticate 1 1, .joinRoom 1 10, .typing 1 10 true]).1

/-- Demo state with two persisted messages in room 10 at times 0 and 1. -/
def demoMsgs : ServerState :=
  (run demoState [.authenticate 1 1, .authenticate 2 2, .joinRoom 2 10,
    .message 2 10 "one", .tick 1, .message 2 10 "two"]).1

/-! ### Further lemmas about key-preserving conditional map updates -/

theorem mget_ifMapKey {β : Type} (k : Nat) (cond : Nat → Prop)
    [DecidablePred cond] (f : β → β) (l : List (Nat × β)) :
    mget k (l.map (fun p => if cond p.1 then (p.1, f p.2) else p)) =
      (mget k l).map (fun v => if cond k then f v else v) := by
  induction l with
  | nil => rfl
  | cons p rest ih =>
    by_cases hk : p.1 = k
    · subst hk
      by_cases hc : cond p.1 <;> simp [mget, hc]
    · by_cases hc : cond p.1 <;> simp [mget, hk, hc, ih]

theorem mget_ifMapVal {β : Type} (k : Nat) (cond : β → Prop)
    [DecidablePred cond] (f : β → β) (l : List (Nat × β)) :
    mget k (l.map (fun p => if cond p.2 then (p.1, f p.2) else p)) =
      (mget k l).map (fun v => if cond v then f v else v) := by
  induction l with
  | nil => rfl
  | cons p rest ih =>
    by_cases hk : p.1 = k
    · subst hk
      by_cases hc : cond p.2 <;> simp [mget, hc]
    · by_cases hc : cond p.2 <;> simp [mget, hk, hc, ih]

/-! ### Claim C4 -/

/-- Claim C4 (counterexample to the claim as stated): socket 1, already
bound to user 1 (Alice), sends a second `authenticate` for user 2 (Bob);
the attempt does not fail — the trace produces two `authenticated` acks
and no `error`, and the socket ends up bound to Bob, a different user. -/
theorem reauthenticate_counterexample :
    (run demoState [Event.authenticate 1 1, Event.authenticate 1 2]).2 =
      [Emit.authenticated 1, Emit.authenticated 1] ∧
    mget 1 (run demoState
        [Event.authenticate 1 1, Event.authenticate 1 2]).1.socketUser =
      some bob := by
  decide

/-- Claim C4 (amended): the `authenticate` handler performs no
already-authenticated check: whenever the requested user id resolves, it
(re)binds `socket.user` to that user, updates `onlineUsers`, and acks with
`authenticated` — also when the socket already holds a binding, which is
thereby replaced by the new identity. -/
theorem authenticate_rebinds (st : ServerState) (sid uid : Nat) (u : User)
    (hu : User.findById st.users uid = some u) :
    mget sid (handleAuthenticate st sid uid).1.socketUser = some u ∧
    mget sid (handleAuthenticate st sid uid).1.onlineUsers = some u ∧
    (handleAuthenticate st sid uid).2 = [Emit.authenticated sid] := by
  simp [handleAuthenticate, hu, mget_mset_self]

/-- Witness for `authenticate_rebinds`: socket 1 is already bound to Alice
and re-authenticates as user 2 (Bob); the hypothesis and the rebind are
checked on the concrete state. -/
theorem authenticate_rebinds_witness :
    User.findById (run demoState [Event.authenticate 1 1]).1.users 2 = some bob ∧
    mget 1 (handleAuthenticate (run demoState [Event.authenticate 1 1]).1 1 2).1.socketUser =
      some bob := by
  refine ⟨by decide, ?_⟩
  exact (authenticate_rebinds (run demoState [Event.authenticate 1 1]).1 1 2 bob
    (by decide)).1

/-! ### Claim C9 -/

/-- Claim C9 (counterexample to the claim as stated): a `typing` signal
from a socket that was never authenticated fails the NotAuthenticated
precondition of `setTyping`, yet the handler returns silently — no `error`
event and no state change — although the claim allows silence only for
`EmptyContent`. -/
theorem silent_typing_failure_counterexample :
    handleTyping demoState 1 10 true = (demoState, []) := by
  decide

/-- Claim C9 (amended): failed preconditions of `authenticate` (unknown
user) and of `joinRoom`/`publish` (not authenticated; room not found) are
surfaced to the originating socket as `error` events, and a publish whose
content trims to empty is a silent no-op; but `typing` and `leaveRoom`
from an unauthenticated socket are silent no-ops as well, not errors. -/
theorem error_surfacing (st : ServerState) (sid uid cid : Nat)
    (content : String) (b : Bool) :
    (User.findById st.users uid = none →
      handleAuthenticate st sid uid = (st, [Emit.error sid "用户不存在"])) ∧
    (mget sid st.socketUser = none →
      handleJoinRoom st sid cid = (st, [Emit.error sid "请先登录"])) ∧
    (∀ u, mget sid st.socketUser = some u →
      Chatroom.findById st.chatrooms cid = none →
      handleJoinRoom st sid cid = (st, [Emit.error sid "聊天室不存在"])) ∧
    (mget sid st.socketUser = none →
      handleMessage st sid cid content = (st, [Emit.error sid "请先登录"])) ∧
    (∀ u, mget sid st.socketUser = some u → jsTrim content = "" →
      handleMessage st sid cid content = (st, [])) ∧
    (mget sid st.socketUser = none → handleTyping st sid cid b = (st, [])) ∧
    (mget sid st.socketUser = none → handleLeaveRoom st sid cid = (st, [])) := by
  refine ⟨?_, ?_, ?_, ?_, ?_, ?_, ?_⟩
  · intro h
    simp [handleAuthenticate, h]
  · intro h
    simp [handleJoinRoom, h]
  · intro u hu hr
    simp [handleJoinRoom, hu, hr]
  · intro h
    simp [handleMessage, h]
  · intro u hu hc
    simp [handleMessage, hu, hc]
  · intro h
    simp [handleTyping, h]
  · intro h
    simp [handleLeaveRoom, h]

/-- Witness for `error_surfacing`: each branch instantiated on concrete
states — socket 9 is unauthenticated in `demoJoined`, user 99 and room 99
do not exist, and socket 1 is authenticated as Alice. -/
theorem error_surfacing_witness :
    (handleAuthenticate demoJoined 9 99 = (demoJoined, [Emit.error 9 "用户不存在"])) ∧
    (handleJoinRoom demoJoined 9 99 = (demoJoined, [Emit.error 9 "请先登录"])) ∧
    (handleJoinRoom demoJoined 1 99 = (demoJoined, [Emit.error 1 "聊天室不存在"])) ∧
    (handleMessage demoJoined 9 10 "hi" = (demoJoined, [Emit.error 9 "请先登录"])) ∧
    (handleMessage demoJoined 1 10 "  " = (demoJoined, [])) ∧
    (handleTyping demoJoined 9 10 true = (demoJoined, [])) ∧
    (handleLeaveRoom demoJoined 9 10 = (demoJoined, [])) := by
  refine ⟨?_, ?_, ?_, ?_, ?_, ?_, ?_⟩
  · exact (error_surfacing demoJoined 9 99 10 "hi" true).1 (by decide)
  · exact (error_surfacing demoJoined 9 99 99 "hi" true).2.1 (by decide)
  · exact (error_surfacing demoJoined 1 99 99 "hi" true).2.2.1 alice (by decide) (by decide)
  · exact (error_surfacing demoJoined 9 99 10 "hi" true).2.2.2.1 (by decide)
  · exact (error_surfacing demoJoined 1 99 10 "  " true).2.2.2.2.1 alice (by decide) (by decide)
  · exact (error_surfacing demoJoined 9 99 10 "hi" true).2.2.2.2.2.1 (by decide)
  · exact (error_surfacing demoJoined 9 99 10 "hi" true).2.2.2.2.2.2 (by decide)

/-! ### Claim C5 -/

/-- Claim C5 (counterexample to the claim as stated): socket 1 sets
typing=true in room 10 and then 4 time units pass with no further signal —
past the claimed 3-unit idle window.  The typing entry is still present,
and the entire trace contains exactly one `typingUsers` event (the
insertion broadcast): no automatic removal event was ever emitted, because
the server registers no expiry timer at all. -/
theorem typing_no_expiry_counterexample :
    mget 1 (mgetD 10 (run demoState [Event.authenticate 1 1, Event.joinRoom 1 10,
        Event.typing 1 10 true, Event.tick 4]).1.typingUsers []) =
      some (TypingInfo.mk 1 "Alice") ∧
    (run demoState [Event.authenticate 1 1, Event.joinRoom 1 10,
        Event.typing 1 10 true, Event.tick 4]).2.countP Emit.isTypingUsers = 1 := by
  decide

/-- Claim C5 (amended): typing entries never self-expire on the server:
after `setTyping(c, r, true)` the entry persists across any passage of
time with no further signals, and time passing emits nothing. Removal
requires an explicit `isTyping=false` signal (the repository's browser
client sends one after its own 3-second timeout) or a disconnect while the
connection is still a live member of the room. -/
theorem typing_entry_never_expires (st : ServerState) (sid cid dt : Nat)
    (u : User) (hu : mget sid st.socketUser = some u) :
    mget sid (mgetD cid (tick dt (handleTyping st sid cid true).1).typingUsers []) =
      some (TypingInfo.mk u.id u.nickname) ∧
    (step (handleTyping st sid cid true).1 (Event.tick dt)).2 = [] := by
  constructor
  · simp [handleTyping, hu, tick, mgetD, mget_mset_self]
  · rfl

/-- Witness for `typing_entry_never_expires`: socket 1 (Alice) in room 10,
100 time units elapsing. -/
theorem typing_entry_never_expires_witness :
    mget 1 demoJoined.socketUser = some alice ∧
    mget 1 (mgetD 10 (tick 100 (handleTyping demoJoined 1 10 true).1).typingUsers []) =
      some (TypingInfo.mk 1 "Alice") := by
  refine ⟨by decide, ?_⟩
  exact (typing_entry_never_expires demoJoined 1 10 100 alice (by decide)).1

/-! ### Claim C6 -/

/-- Claim C6 (counterexample to the claim as stated): socket 1 already has
an active typing entry in room 10 and signals typing=true again; the trace
contains two `typingUsers` broadcasts, whereas the edge-triggered claim
predicts a single one (the repeated signal should emit nothing). -/
theorem typing_repeat_emit_counterexample :
    (run demoState [Event.authenticate 1 1, Event.joinRoom 1 10,
        Event.typing 1 10 true, Event.typing 1 10 true]).2.countP
      Emit.isTypingUsers = 2 := by
  decide

/-- Claim C6 (amended): typing broadcasts are level-triggered, not
edge-triggered: every `typing` signal from an authenticated socket emits
one `typingUsers` event to each socket currently in the room — regardless
of whether the signal changed the typing state (so also for a repeated
`true` and for a `false` with no existing entry). -/
theorem typing_broadcast_every_signal (st : ServerState) (sid cid : Nat)
    (b : Bool) (u : User) (hu : mget sid st.socketUser = some u) :
    (handleTyping st sid cid b).2.length = (roomSockets st cid).length ∧
    (∀ t ∈ roomSockets st cid,
      ∃ lst, Emit.typingUsers t cid lst ∈ (handleTyping st sid cid b).2) ∧
    (∀ e ∈ (handleTyping st sid cid b).2, e.isTypingUsers = true) := by
  refine ⟨?_, ?_, ?_⟩
  · simp [handleTyping, hu]
  · intro t ht
    simp only [handleTyping, hu]
    exact ⟨_, List.mem_map_of_mem _ ht⟩
  · intro e he
    simp only [handleTyping, hu, List.mem_map] at he
    obtain ⟨t, _, rfl⟩ := he
    rfl

/-- Witness for `typing_broadcast_every_signal`: in `demoTyping` socket 1
already holds an active entry in room 10, and a repeated typing=true still
produces one broadcast per room member (socket 1 itself). -/
theorem typing_broadcast_every_signal_witness :
    mget 1 demoTyping.socketUser = some alice ∧
    (handleTyping demoTyping 1 10 true).2.length = (roomSockets demoTyping 10).length ∧
    mget 1 (mgetD 10 demoTyping.typingUsers []) = some (TypingInfo.mk 1 "Alice") := by
  refine ⟨by decide, ?_, by decide⟩
  exact (typing_broadcast_every_signal demoTyping 1 10 true alice (by decide)).1

/-! ### Claim C7 -/

/-- Claim C7 (counterexample to the claim as stated): socket 1 is in room
10 and signals typing; the `typingUsers` broadcast describing socket 1's
own typing action is delivered back to socket 1 itself, because the
`typing` handler broadcasts with `io.to(room)`, which does not exclude the
sender. -/
theorem self_typing_delivery_counterexample :
    Emit.typingUsers 1 10 [TypingInfo.mk 1 "Alice"] ∈
      (run demoState [Event.authenticate 1 1, Event.joinRoom 1 10,
        Event.typing 1 10 true]).2 := by
  decide

/-- Claim C7 (amended): self-exclusion holds for the presence events — a
connection's own `joinRoom` never sends it `userJoined`, its own
`leaveRoom` never sends it `userLeft`, and its own disconnect delivers it
nothing at all (these broadcasts go through `socket.to`, which excludes
the sender) — but not for typing: `typingUsers` broadcasts are delivered
to every socket in the room, the typist included. -/
theorem presence_self_exclusion (st : ServerState) (sid cid : Nat) :
    (∀ uid nick, Emit.userJoined sid uid nick ∉ (handleJoinRoom st sid cid).2) ∧
    (∀ uid nick, Emit.userLeft sid uid nick ∉ (handleLeaveRoom st sid cid).2) ∧
    (∀ e ∈ (handleDisconnect st sid).2, e.target ≠ sid) := by
  refine ⟨?_, ?_, ?_⟩
  · intro uid nick hmem
    cases hsu : mget sid st.socketUser with
    | none => simp [handleJoinRoom, hsu] at hmem
    | some u =>
      cases hcr : Chatroom.findById st.chatrooms cid with
      | none => simp [handleJoinRoom, hsu, hcr] at hmem
      | some room =>
        simp only [handleJoinRoom, hsu, hcr] at hmem
        rw [List.mem_append] at hmem
        rcases hmem with h | h
        · simp at h
        · rw [List.mem_map] at h
          obtain ⟨t, ht, heq⟩ := h
          injection heq with h1 h2 h3
          rw [socketToTargets, List.mem_filter] at ht
          rw [h1] at ht
          simpa using ht.2
  · intro uid nick hmem
    cases hsu : mget sid st.socketUser with
    | none => simp [handleLeaveRoom, hsu] at hmem
    | some u =>
      simp only [handleLeaveRoom, hsu] at hmem
      rw [List.mem_map] at hmem
      obtain ⟨t, ht, heq⟩ := hmem
      injection heq with h1 h2 h3
      rw [socketToTargets, List.mem_filter] at ht
      rw [h1] at ht
      simpa using ht.2
  · intro e hmem
    cases hsu : mget sid st.socketUser with
    | none => simp [handleDisconnect, hsu] at hmem
    | some u =>
      simp only [handleDisconnect, hsu] at hmem
      rw [List.mem_flatMap] at hmem
      obtain ⟨p, hpmem, hp⟩ := hmem
      by_cases hs : sid ∈ p.2
      · rw [if_pos hs, List.mem_append] at hp
        rcases hp with hp | hp
        · cases htu : mget p.1 st.typingUsers with
          | none =>
            rw [htu] at hp
            simp at hp
          | some room =>
            rw [htu] at hp
            rw [List.mem_map] at hp
            obtain ⟨t, ht, heq⟩ := hp
            rw [socketToTargets, List.mem_filter] at ht
            subst heq
            simpa [Emit.target] using ht.2
        · rw [List.mem_map] at hp
          obtain ⟨t, ht, heq⟩ := hp
          rw [socketToTargets, List.mem_filter] at ht
          subst heq
          simpa [Emit.target] using ht.2
      · rw [if_neg hs] at hp
        simp at hp

/-! ### Claim C2 -/

/-- Claim C2 (counterexample to the claim as stated): socket 1 joins room
10, signals typing, leaves the room (the `leaveRoom` handler does not
touch typing state), then disconnects.  The disconnect cleanup only clears
typing entries of rooms in which the socket is still tracked in
`chatroomUsers`, so after `unwind` a typing entry for socket 1 still
exists in room 10 — contradicting "no typing entry for c exists in any
room". -/
theorem unwind_stale_typing_counterexample :
    mget 1 (mgetD 10 (run demoState [Event.authenticate 1 1, Event.joinRoom 1 10,
        Event.typing 1 10 true, Event.leaveRoom 1 10,
        Event.disconnect 1]).1.typingUsers []) =
      some (TypingInfo.mk 1 "Alice") := by
  decide

/-- Claim C2 (amended): after `unwind(c)` the connection is removed from
the online-user registry and from every room's live member set, and — for
an authenticated connection — the typing entries of every room in which it
was still a live member at disconnect time are cleared; typing entries it
left behind in rooms it had already left survive.  `unwind` is total: on a
never-authenticated connection it emits nothing and leaves room and typing
state untouched. -/
theorem disconnect_cleanup (st : ServerState) (sid : Nat) :
    mget sid (handleDisconnect st sid).1.onlineUsers = none ∧
    mget sid (handleDisconnect st sid).1.socketUser = none ∧
    (∀ u, mget sid st.socketUser = some u →
      (∀ cid, sid ∉ mgetD cid (handleDisconnect st sid).1.chatroomUsers []) ∧
      (∀ cid, sid ∈ mgetD cid st.chatroomUsers [] →
        mget sid (mgetD cid (handleDisconnect st sid).1.typingUsers []) = none)) ∧
    (mget sid st.socketUser = none →
      (handleDisconnect st sid).2 = [] ∧
      (handleDisconnect st sid).1.chatroomUsers = st.chatroomUsers ∧
      (handleDisconnect st sid).1.typingUsers = st.typingUsers) := by
  refine ⟨?_, ?_, ?_, ?_⟩
  · cases hsu : mget sid st.socketUser with
    | none => simp [handleDisconnect, hsu, mget_mdelete_self]
    | some u => simp [handleDisconnect, hsu, mget_mdelete_self]
  · cases hsu : mget sid st.socketUser with
    | none => simp [handleDisconnect, hsu, mget_mdelete_self]
    | some u => simp [handleDisconnect, hsu, mget_mdelete_self]
  · intro u hsu
    constructor
    · intro cid
      have hcu : (handleDisconnect st sid).1.chatroomUsers =
          st.chatroomUsers.map
            (fun (p : Nat × List Nat) => if sid ∈ p.2 then (p.1, sdel sid p.2) else p) := by
        simp [handleDisconnect, hsu]
      rw [hcu, mgetD, mget_ifMapVal cid (fun s => sid ∈ s) (sdel sid) st.chatroomUsers]
      cases h : mget cid st.chatroomUsers with
      | none => simp
      | some s =>
        by_cases hm : sid ∈ s
        · simp [hm, sdel_not_mem]
        · simp [hm]
    · intro cid hcid
      have htu : (handleDisconnect st sid).1.typingUsers =
          st.typingUsers.map
            (fun (p : Nat × List (Nat × TypingInfo)) =>
              if sid ∈ mgetD p.1 st.chatroomUsers [] then (p.1, mdelete sid p.2) else p) := by
        simp [handleDisconnect, hsu]
      rw [htu, mgetD,
        mget_ifMapKey cid (fun n => sid ∈ mgetD n st.chatroomUsers []) (mdelete sid)
          st.typingUsers]
      cases h : mget cid st.typingUsers with
      | none => simp [mget]
      | some room => simp [hcid, mget_mdelete_self]
  · intro hsu
    refine ⟨?_, ?_, ?_⟩ <;> simp [handleDisconnect, hsu]

/-- Witness for `disconnect_cleanup`: the authenticated branch on the
concrete state `demoTyping` (socket 1 in room 10 with an active typing
entry) and the no-op branch on the never-authenticated socket 9. -/
theorem disconnect_cleanup_witness :
    mget 1 demoTyping.socketUser = some alice ∧
    (1 : Nat) ∉ mgetD 10 (handleDisconnect demoTyping 1).1.chatroomUsers [] ∧
    (1 : Nat) ∈ mgetD 10 demoTyping.chatroomUsers [] ∧
    mget 1 (mgetD 10 (handleDisconnect demoTyping 1).1.typingUsers []) = none ∧
    mget 1 (handleDisconnect demoTyping 1).1.onlineUsers = none ∧
    mget 9 demoTyping.socketUser = none ∧
    (handleDisconnect demoTyping 9).2 = [] := by
  refine ⟨by decide, ?_, by decide, ?_, ?_, by decide, ?_⟩
  · exact ((disconnect_cleanup demoTyping 1).2.2.1 alice (by decide)).1 10
  · exact ((disconnect_cleanup demoTyping 1).2.2.1 alice (by decide)).2 10 (by decide)
  · exact (disconnect_cleanup demoTyping 1).1
  · exact ((disconnect_cleanup demoTyping 9).2.2.2 (by decide)).1

/-! ### Claim C8 -/

/-- Claim C8 (counterexample to the claim as stated): sockets 1 and 2 are
in room 10; socket 2 sends `joinRoom` for room 10 a second time.  Across
the trace socket 1 receives the `userJoined` notification about Bob twice:
the re-join emitted a duplicate notification. -/
theorem rejoin_duplicate_joined_counterexample :
    (run demoState [Event.authenticate 1 1, Event.authenticate 2 2,
        Event.joinRoom 1 10, Event.joinRoom 2 10, Event.joinRoom 2 10]).2.count
      (Emit.userJoined 1 2 "Bob") = 2 := by
  decide

/-- Claim C8 (amended): a second `join(c, r)` while `c` is already a live
member of `r` leaves the live membership of `r` unchanged (both the
Socket.IO room group and `chatroomUsers` are exactly as before), but it is
not silent: the join sequence re-runs and a `userJoined` notification
about `c` is emitted again to every other member of the room. -/
theorem rejoin_idempotent_membership (st : ServerState) (sid cid : Nat)
    (u : User) (room : Chatroom)
    (hu : mget sid st.socketUser = some u)
    (hroom : Chatroom.findById st.chatrooms cid = some room)
    (hio : sid ∈ mgetD cid st.ioRooms [])
    (hcu : sid ∈ mgetD cid st.chatroomUsers []) :
    (handleJoinRoom st sid cid).1.ioRooms = st.ioRooms ∧
    (handleJoinRoom st sid cid).1.chatroomUsers = st.chatroomUsers ∧
    (∀ t ∈ mgetD cid st.ioRooms [], t ≠ sid →
      Emit.userJoined t u.id u.nickname ∈ (handleJoinRoom st sid cid).2) := by
  have hioSome : ∃ s, mget cid st.ioRooms = some s ∧ sid ∈ s := by
    cases h : mget cid st.ioRooms with
    | none => rw [mgetD, h] at hio; simp at hio
    | some s => rw [mgetD, h] at hio; exact ⟨s, rfl, hio⟩
  have hcuSome : ∃ s, mget cid st.chatroomUsers = some s ∧ sid ∈ s := by
    cases h : mget cid st.chatroomUsers with
    | none => rw [mgetD, h] at hcu; simp at hcu
    | some s => rw [mgetD, h] at hcu; exact ⟨s, rfl, hcu⟩
  obtain ⟨sio, hio1, hio2⟩ := hioSome
  obtain ⟨scu, hcu1, hcu2⟩ := hcuSome
  have hioEq : mset cid (sadd sid (mgetD cid st.ioRooms [])) st.ioRooms = st.ioRooms := by
    rw [mgetD, hio1]
    simp only [Option.getD_some]
    rw [sadd_eq_of_mem sid sio hio2]
    exact mset_eq_of_mget cid sio st.ioRooms hio1
  have hcuEq : mset cid (sadd sid (mgetD cid st.chatroomUsers [])) st.chatroomUsers =
      st.chatroomUsers := by
    rw [mgetD, hcu1]
    simp only [Option.getD_some]
    rw [sadd_eq_of_mem sid scu hcu2]
    exact mset_eq_of_mget cid scu st.chatroomUsers hcu1
  refine ⟨?_, ?_, ?_⟩
  · simp [handleJoinRoom, hu, hroom, hioEq]
  · simp [handleJoinRoom, hu, hroom, hcuEq]
  · intro t ht hne
    simp only [handleJoinRoom, hu, hroom]
    rw [List.mem_append]
    right
    rw [List.mem_map]
    refine ⟨t, ?_, rfl⟩
    rw [socketToTargets, List.mem_filter]
    constructor
    · show t ∈ mgetD cid (mset cid (sadd sid (mgetD cid st.ioRooms [])) st.ioRooms) []
      rw [hioEq]
      exact ht
    · simpa using hne

/-- Witness for `rejoin_idempotent_membership`: socket 2 re-joins room 10
in `demoJoined` (where sockets 1 and 2 are already members): membership is
unchanged and socket 1 receives the duplicate notification. -/
theorem rejoin_idempotent_membership_witness :
    mget 2 demoJoined.socketUser = some bob ∧
    Chatroom.findById demoJoined.chatrooms 10 = some roomGeneral ∧
    (2 : Nat) ∈ mgetD 10 demoJoined.ioRooms [] ∧
    (handleJoinRoom demoJoined 2 10).1.ioRooms = demoJoined.ioRooms ∧
    Emit.userJoined 1 2 "Bob" ∈ (handleJoinRoom demoJoined 2 10).2 := by
  refine ⟨by decide, by decide, by decide, ?_, ?_⟩
  · exact (rejoin_idempotent_membership demoJoined 2 10 bob roomGeneral
      (by decide) (by decide) (by decide) (by decide)).1
  · exact (rejoin_idempotent_membership demoJoined 2 10 bob roomGeneral
      (by decide) (by decide) (by decide) (by decide)).2.2 1 (by decide) (by decide)

/-! ### Claim C3 -/

/-- Claim C3 (counterexample to the claim as stated): in `demoBob` socket 1
is authenticated but has no live presence in room 10 (it is in neither the
Socket.IO room nor `chatroomUsers`), yet its publish succeeds: the message
is persisted, broadcast to the room's live member (socket 2), and no error
of any kind reaches the sender — the `message` handler performs no
membership check at all. -/
theorem publish_without_membership_counterexample :
    ((1 : Nat) ∉ mgetD 10 demoBob.chatroomUsers []) ∧
    ((1 : Nat) ∉ mgetD 10 demoBob.ioRooms []) ∧
    (handleMessage demoBob 1 10 " hi ").1.messages =
      [Message.mk 1 10 1 "hi" 0] ∧
    (handleMessage demoBob 1 10 " hi ").2 =
      [Emit.message 2 (WireMessage.mk 1 1 "Alice" "alice" none "hi" 0 10)] := by
  decide

/-- Claim C3 (amended): `publish` checks only authentication and non-empty
trimmed content: any authenticated connection can publish to any room id,
whether or not it occupies the room.  The message is persisted and fanned
out to the room's current Socket.IO membership, and the sender receives no
error. -/
theorem publish_only_checks_auth_and_content (st : ServerState)
    (sid cid : Nat) (content : String) (u : User)
    (hu : mget sid st.socketUser = some u) (hc : jsTrim content ≠ "") :
    (handleMessage st sid cid content).1.messages =
      st.messages ++ [Message.mk st.nextMessageId cid u.id (jsTrim content) st.now] ∧
    (handleMessage st sid cid content).2 =
      (roomSockets st cid).map (fun t => Emit.message t
        (WireMessage.mk st.nextMessageId u.id u.nickname u.username u.avatar
          (jsTrim content) st.now cid)) ∧
    ∀ msg, Emit.error sid msg ∉ (handleMessage st sid cid content).2 := by
  refine ⟨?_, ?_, ?_⟩
  · simp [handleMessage, hu, hc, messagePersist, Message.create]
  · simp [handleMessage, hu, hc, messagePersist, Message.create, messageFanout,
      roomSockets]
  · intro msg hmem
    simp only [handleMessage, hu, if_neg hc, messageFanout, List.mem_map] at hmem
    obtain ⟨t, _, heq⟩ := hmem
    exact Emit.noConfusion heq

/-- Witness for `publish_only_checks_auth_and_content`: socket 1 in
`demoBob` is authenticated as Alice and absent from room 10, yet its
publish appends the persisted message row. -/
theorem publish_only_checks_auth_and_content_witness :
    mget 1 demoBob.socketUser = some alice ∧
    jsTrim " hi " ≠ "" ∧
    (1 : Nat) ∉ mgetD 10 demoBob.ioRooms [] ∧
    (handleMessage demoBob 1 10 " hi ").1.messages =
      demoBob.messages ++
        [Message.mk demoBob.nextMessageId 10 1 (jsTrim " hi ") demoBob.now] := by
  refine ⟨by decide, by decide, by decide, ?_⟩
  exact (publish_only_checks_auth_and_content demoBob 1 10 " hi " alice
    (by decide) (by decide)).1

/-! ### Claim C1 -/

/-- Claim C1: fan-out of a published message is computed from the live
Socket.IO room membership, re-read after persistence completes.  If the
publish by A is accepted (`messageCheck` returns a pending publish), B is
a live connection that leaves room `cid` during the persistence window,
and C is an authenticated connection that joins the (existing) room during
that window, then the fan-out performed after persistence delivers nothing
to B and delivers the message to C. -/
theorem publish_fanout_live_membership (st : ServerState)
    (A B C cid : Nat) (content : String) (p : Pending) (uB uC : User)
    (room : Chatroom)
    (hcheck : messageCheck st A cid content = some p)
    (hB : mget B st.socketUser = some uB)
    (hC : mget C st.socketUser = some uC)
    (hroom : Chatroom.findById st.chatrooms cid = some room)
    (hBC : B ≠ C) :
    (∀ e ∈ messageFanout
        (handleJoinRoom (handleLeaveRoom (messagePersist st p).1 B cid).1 C cid).1
        p (messagePersist st p).2, e.target ≠ B) ∧
    ∃ e ∈ messageFanout
        (handleJoinRoom (handleLeaveRoom (messagePersist st p).1 B cid).1 C cid).1
        p (messagePersist st p).2, e.target = C := by
  have hpcid : p.chatroomId = cid := by
    cases hA : mget A st.socketUser with
    | none => simp [messageCheck, hA] at hcheck
    | some uA =>
      simp only [messageCheck, hA] at hcheck
      by_cases ht : jsTrim content = ""
      · rw [if_pos ht] at hcheck; simp at hcheck
      · rw [if_neg ht] at hcheck
        injection hcheck with h
        rw [← h]
  have hB1 : mget B (messagePersist st p).1.socketUser = some uB := hB
  have hleave : (handleLeaveRoom (messagePersist st p).1 B cid).1 =
      { (messagePersist st p).1 with
          ioRooms := mupdate cid (sdel B) (messagePersist st p).1.ioRooms,
          chatroomUsers := mupdate cid (sdel B) (messagePersist st p).1.chatroomUsers } := by
    simp [handleLeaveRoom, hB1]
  have hC2 : mget C (handleLeaveRoom (messagePersist st p).1 B cid).1.socketUser =
      some uC := by
    rw [hleave]; exact hC
  have hroom2 : Chatroom.findById
      (handleLeaveRoom (messagePersist st p).1 B cid).1.chatrooms cid = some room := by
    rw [hleave]; exact hroom
  have hBst2 : B ∉ roomSockets (handleLeaveRoom (messagePersist st p).1 B cid).1 cid := by
    rw [roomSockets, hleave]
    show B ∉ (mget cid (mupdate cid (sdel B) (messagePersist st p).1.ioRooms)).getD []
    rw [mget_mupdate_self]
    cases mget cid (messagePersist st p).1.ioRooms with
    | none => simp
    | some s => simpa using sdel_not_mem B s
  have hjoin : (handleJoinRoom (handleLeaveRoom (messagePersist st p).1 B cid).1 C cid).1.ioRooms =
      mset cid (sadd C (mgetD cid (handleLeaveRoom (messagePersist st p).1 B cid).1.ioRooms []))
        (handleLeaveRoom (messagePersist st p).1 B cid).1.ioRooms := by
    simp [handleJoinRoom, hC2, hroom2]
  have hrs3 : roomSockets
      (handleJoinRoom (handleLeaveRoom (messagePersist st p).1 B cid).1 C cid).1 cid =
      sadd C (roomSockets (handleLeaveRoom (messagePersist st p).1 B cid).1 cid) := by
    rw [roomSockets, hjoin, mgetD, mget_mset_self, Option.getD_some, roomSockets]
  have hBnot : B ∉ roomSockets
      (handleJoinRoom (handleLeaveRoom (messagePersist st p).1 B cid).1 C cid).1 cid := by
    rw [hrs3, mem_sadd]
    rintro (h | h)
    · exact hBst2 h
    · exact hBC h
  have hCmem : C ∈ roomSockets
      (handleJoinRoom (handleLeaveRoom (messagePersist st p).1 B cid).1 C cid).1 cid := by
    rw [hrs3, mem_sadd]
    exact Or.inr rfl
  constructor
  · intro e he
    rw [messageFanout, hpcid, List.mem_map] at he
    obtain ⟨t, ht, rfl⟩ := he
    intro hEq
    rw [Emit.target] at hEq
    rw [hEq] at ht
    exact hBnot ht
  · refine ⟨Emit.message C
      (WireMessage.mk (messagePersist st p).2.id p.user.id p.user.nickname p.user.username
        p.user.avatar p.content
        (handleJoinRoom (handleLeaveRoom (messagePersist st p).1 B cid).1 C cid).1.now
        p.chatroomId), ?_, rfl⟩
    rw [messageFanout, hpcid]
    exact List.mem_map_of_mem _ hCmem

/-- Witness for `publish_fanout_live_membership`: in `demoJoined` sockets 1
and 2 occupy room 10 and socket 3 is authenticated outside it; socket 1's
accepted publish, with socket 2 leaving and socket 3 joining during the
persistence window, is delivered to socket 3 and not to socket 2. -/
theorem publish_fanout_live_membership_witness :
    messageCheck demoJoined 1 10 "hello" = some demoPending ∧
    mget 2 demoJoined.socketUser = some bob ∧
    mget 3 demoJoined.socketUser = some carol ∧
    Chatroom.findById demoJoined.chatrooms 10 = some roomGeneral ∧
    ((∀ e ∈ messageFanout
        (handleJoinRoom (handleLeaveRoom (messagePersist demoJoined demoPending).1 2 10).1 3 10).1
        demoPending (messagePersist demoJoined demoPending).2, e.target ≠ 2) ∧
     ∃ e ∈ messageFanout
        (handleJoinRoom (handleLeaveRoom (messagePersist demoJoined demoPending).1 2 10).1 3 10).1
        demoPending (messagePersist demoJoined demoPending).2, e.target = 3) := by
  refine ⟨by decide, by decide, by decide, by decide, ?_⟩
  exact publish_fanout_live_membership demoJoined 1 2 3 10 "hello" demoPending bob carol
    roomGeneral (by decide) (by decide) (by decide) (by decide) (by decide)

/-! ### Claim C10 -/

/-- Claim C10: on every successful `join(c, r)` exactly one
`messageHistory` event is emitted, and it goes to the joining socket only;
its payload is the room's persisted history: at most 50 rows, sorted
ascending by creation time, and consisting of the most recent of the
room's messages — the payload plus a remainder is a permutation of all the
room's joined message rows, and every row in the remainder is no newer
than every delivered row. -/
theorem join_message_history (st : ServerState) (sid cid : Nat) (u : User)
    (room : Chatroom) (hu : mget sid st.socketUser = some u)
    (hroom : Chatroom.findById st.chatrooms cid = some room) :
    (handleJoinRoom st sid cid).2.countP Emit.isMessageHistory = 1 ∧
    (∀ t h2, Emit.messageHistory t h2 ∈ (handleJoinRoom st sid cid).2 →
      t = sid ∧ h2 = Message.getByChatroom st.users st.messages cid 50) ∧
    Emit.messageHistory sid (Message.getByChatroom st.users st.messages cid 50) ∈
      (handleJoinRoom st sid cid).2 ∧
    (Message.getByChatroom st.users st.messages cid 50).length ≤ 50 ∧
    List.Sorted (fun a b : HistoryRow => a.created_at ≤ b.created_at)
      (Message.getByChatroom st.users st.messages cid 50) ∧
    ∃ rest, (historyRows st.users st.messages cid).Perm
        (Message.getByChatroom st.users st.messages cid 50 ++ rest) ∧
      ∀ m ∈ rest, ∀ a ∈ Message.getByChatroom st.users st.messages cid 50,
        m.created_at ≤ a.created_at := by
  refine ⟨?_, ?_, ?_, ?_, ?_, ?_⟩
  · simp only [handleJoinRoom, hu, hroom, List.countP_append, List.countP_cons,
      List.countP_nil, Emit.isMessageHistory]
    rw [List.countP_eq_zero.mpr]
    · simp
    · intro a ha
      rw [List.mem_map] at ha
      obtain ⟨t, _, rfl⟩ := ha
      simp [Emit.isMessageHistory]
  · intro t h2 hmem
    simp only [handleJoinRoom, hu, hroom, List.mem_append, List.mem_cons,
      List.not_mem_nil, or_false, List.mem_map] at hmem
    rcases hmem with (h | h) | h
    · injection h with hT hH
      exact ⟨hT, hH⟩
    · exact Emit.noConfusion h
    · obtain ⟨x, _, hx⟩ := h
      exact Emit.noConfusion hx
  · simp only [handleJoinRoom, hu, hroom]
    exact List.mem_append_left _ (List.mem_cons_self _ _)
  · rw [Message.getByChatroom, List.length_reverse]
    exact List.length_take_le 50 _
  · rw [Message.getByChatroom]
    have hs : List.Sorted histDesc
        ((historyRows st.users st.messages cid).insertionSort histDesc) :=
      List.sorted_insertionSort histDesc _
    have ht : List.Pairwise histDesc
        (((historyRows st.users st.messages cid).insertionSort histDesc).take 50) :=
      List.Pairwise.sublist (List.take_sublist _ _) hs
    exact List.pairwise_reverse.mpr ht
  · rw [Message.getByChatroom]
    generalize historyRows st.users st.messages cid = rows
    refine ⟨(rows.insertionSort histDesc).drop 50, ?_, ?_⟩
    · have h1 : rows.Perm (rows.insertionSort histDesc) :=
        (List.perm_insertionSort histDesc rows).symm
      have h3 : ((rows.insertionSort histDesc).take 50 ++
            (rows.insertionSort histDesc).drop 50).Perm
          (((rows.insertionSort histDesc).take 50).reverse ++
            (rows.insertionSort histDesc).drop 50) :=
        List.Perm.append_right _ (List.reverse_perm _).symm
      have h2 : (rows.insertionSort histDesc).Perm
          (((rows.insertionSort histDesc).take 50).reverse ++
            (rows.insertionSort histDesc).drop 50) := by
        conv_lhs => rw [← List.take_append_drop 50 (rows.insertionSort histDesc)]
        exact h3
      exact h1.trans h2
    · intro m hm a ha
      have hs := List.sorted_insertionSort histDesc rows
      rw [List.Sorted, ← List.take_append_drop 50 (rows.insertionSort histDesc)] at hs
      obtain ⟨_, _, hcross⟩ := List.pairwise_append.mp hs
      rw [List.mem_reverse] at ha
      exact hcross a ha m hm

/-- Witness for `join_message_history`: socket 1 joins room 10 in
`demoMsgs`, whose room holds two messages created at times 0 and 1; the
history payload is those two rows in ascending creation order. -/
theorem join_message_history_witness :
    mget 1 demoMsgs.socketUser = some alice ∧
    Chatroom.findById demoMsgs.chatrooms 10 = some roomGeneral ∧
    (handleJoinRoom demoMsgs 1 10).2.countP Emit.isMessageHistory = 1 ∧
    List.Sorted (fun a b : HistoryRow => a.created_at ≤ b.created_at)
      (Message.getByChatroom demoMsgs.users demoMsgs.messages 10 50) ∧
    Message.getByChatroom demoMsgs.users demoMsgs.messages 10 50 =
      [HistoryRow.mk 1 10 2 "one" 0 "Bob" "bob" none,
       HistoryRow.mk 2 10 2 "two" 1 "Bob" "bob" none] := by
  refine ⟨by decide, by decide, ?_, ?_, by decide⟩
  · exact (join_message_history demoMsgs 1 10 alice roomGeneral
      (by decide) (by decide)).1
  · exact (join_message_history demoMsgs 1 10 alice roomGeneral
      (by decide) (by decide)).2.2.2.2.1
